import Mathlib

/-!
Verification development for the EpicMe MCP server
(journal entries/tags store with a reactive capability layer,
URI subscriptions and a cancellable video-rendering pipeline).

The definitions below are a shallow embedding of the TypeScript sources:
- `prompts-solution.ts` (dynamic prompt enable/disable),
- `resources-solution.ts` (dynamic resource enable/disable and
  resource-list-changed notifications),
- `subscriptions-solution.ts` (URI-level point-update notifications),
- `video.ts` (`createWrappedVideo`, its subscriber bus and progress/cancel
  handling),
- `tools.ts` (`delete_entry` / `delete_tag` tool handlers).
-/

namespace EpicMe

/-! ## Domain records -/

/-- Journal entry record (`{ id, title, content }` as used by the video
pipeline and the tools). -/
structure Entry where
  id : Nat
  title : String
  content : String
deriving Repr, DecidableEq

/-- Tag record (`{ id, name }`). -/
structure Tag where
  id : Nat
  name : String
deriving Repr, DecidableEq

/-- A snapshot of the domain state read by the update functions:
`agent.db.getEntries()`, `agent.db.getTags()` and `listVideos()`. -/
structure DbState where
  entries : List Entry
  tags : List Tag
  videos : List String
deriving Repr, DecidableEq

/-! ## Capability gate (prompts-solution.ts / resources-solution.ts)

The five dynamic capabilities: the `suggest_tags` prompt, the `epicme://tags`
list resource, the `epicme://tags/{id}` template, the `epicme://entries/{id}`
template and the `epicme://videos/{videoId}` template.  Each holds an
`enabled` flag toggled through `enable()` / `disable()`. -/

/-- Enabled flags of the five dynamically gated capabilities. -/
structure Caps where
  suggestTags : Bool
  tagList : Bool
  tagsRes : Bool
  entryRes : Bool
  videoRes : Bool
deriving Repr, DecidableEq

/-- Outward list-changed notifications sent to the client layer. -/
inductive Notif where
  | resourceListChanged
  | promptListChanged
deriving Repr, DecidableEq

/-- Modelled from the spec: the MCP SDK (an external collaborator, not under
the repository sources) automatically sends one list-changed notification
whenever a capability's `enable()`/`disable()` is called, and delivers
notifications only while the server transport is connected.  `main()`
connects the transport only after `init()` has finished, so startup updates
run with `connected = false`. -/
def emitIf (connected : Bool) (n : Notif) : List Notif :=
  if connected then [n] else []

/-- Mirrors `if (!x.enabled) x.enable()` — sets the flag to `true` and emits
one notification exactly when the flag was previously `false`. -/
def enableIfOff (connected : Bool) (n : Notif) (cur : Bool) : Bool × List Notif :=
  if !cur then (true, emitIf connected n) else (cur, [])

/-- Mirrors `if (x.enabled) x.disable()` — sets the flag to `false` and emits
one notification exactly when the flag was previously `true`. -/
def disableIfOn (connected : Bool) (n : Notif) (cur : Bool) : Bool × List Notif :=
  if cur then (false, emitIf connected n) else (cur, [])

/-- Embedding of `updateResources()` (resources-solution.ts, lines 202-229):
tag resources are enabled iff tags exist, the entry resource iff entries
exist, the video resource iff videos exist. -/
def updateResources (connected : Bool) (db : DbState) (st : Caps) : Caps × List Notif :=
  let tagsStep :=
    if db.tags.length > 0 then
      let a := enableIfOff connected Notif.resourceListChanged st.tagList
      let b := enableIfOff connected Notif.resourceListChanged st.tagsRes
      (a.1, b.1, a.2 ++ b.2)
    else
      let a := disableIfOn connected Notif.resourceListChanged st.tagList
      let b := disableIfOn connected Notif.resourceListChanged st.tagsRes
      (a.1, b.1, a.2 ++ b.2)
  let entryStep :=
    if db.entries.length > 0 then
      enableIfOff connected Notif.resourceListChanged st.entryRes
    else
      disableIfOn connected Notif.resourceListChanged st.entryRes
  let videoStep :=
    if db.videos.length > 0 then
      enableIfOff connected Notif.resourceListChanged st.videoRes
    else
      disableIfOn connected Notif.resourceListChanged st.videoRes
  ({ st with
      tagList := tagsStep.1
      tagsRes := tagsStep.2.1
      entryRes := entryStep.1
      videoRes := videoStep.1 },
    tagsStep.2.2 ++ entryStep.2 ++ videoStep.2)

/-- Embedding of `updatePrompts()` (prompts-solution.ts, lines 129-141):
the `suggest_tags` prompt is enabled iff entries exist. -/
def updatePrompts (connected : Bool) (db : DbState) (st : Caps) : Caps × List Notif :=
  if db.entries.length > 0 then
    let p := enableIfOff connected Notif.promptListChanged st.suggestTags
    ({ st with suggestTags := p.1 }, p.2)
  else
    let p := disableIfOn connected Notif.promptListChanged st.suggestTags
    ({ st with suggestTags := p.1 }, p.2)

/-- One database-change publish at runtime (transport connected).  The three
db subscribers run in registration order (init order in `index.ts`):
1. the unconditional `() => agent.server.sendResourceListChanged()`
   registered at resources-solution.ts line 43,
2. `updateResources` (line 233),
3. `updatePrompts` (prompts-solution.ts line 146).
Returns the new capability flags and all notifications sent for this tick. -/
def dbTick (db : DbState) (st : Caps) : Caps × List Notif :=
  let n1 := [Notif.resourceListChanged]
  let r := updateResources true db st
  let p := updatePrompts true db r.1
  (p.1, n1 ++ r.2 ++ p.2)

/-- The startup recompute: `await updateResources()` then
`await updatePrompts()` run during `init()`, before the transport is
connected, so `connected = false`.  The unconditional db subscriber does not
run here (no db change is published at startup). -/
def startupUpdate (db : DbState) (st : Caps) : Caps × List Notif :=
  let r := updateResources false db st
  let p := updatePrompts false db r.1
  (p.1, r.2 ++ p.2)

/-- Runs a sequence of domain mutations: each element is the post-mutation
database snapshot published on the change bus, fully handled by `dbTick`. -/
def runTicks (dbs : List DbState) (st : Caps) : Caps :=
  dbs.foldl (fun s db => (dbTick db s).1) st

/-- Number of capability flags whose predicate value differs from the current
flag, i.e. how many flags flip on the next recompute against `db`. -/
def flipCount (db : DbState) (st : Caps) : Nat :=
  (if st.suggestTags = decide (db.entries.length > 0) then 0 else 1) +
  (if st.tagList = decide (db.tags.length > 0) then 0 else 1) +
  (if st.tagsRes = decide (db.tags.length > 0) then 0 else 1) +
  (if st.entryRes = decide (db.entries.length > 0) then 0 else 1) +
  (if st.videoRes = decide (db.videos.length > 0) then 0 else 1)

/-! ### Helper lemmas for the capability gate -/

lemma dbTick_flags (db : DbState) (st : Caps) :
    ((dbTick db st).1.suggestTags = decide (db.entries.length > 0)) ∧
    ((dbTick db st).1.tagList = decide (db.tags.length > 0)) ∧
    ((dbTick db st).1.tagsRes = decide (db.tags.length > 0)) ∧
    ((dbTick db st).1.entryRes = decide (db.entries.length > 0)) ∧
    ((dbTick db st).1.videoRes = decide (db.videos.length > 0)) := by
  obtain ⟨p1, p2, p3, p4, p5⟩ := st
  simp only [dbTick, updateResources, updatePrompts, enableIfOff, disableIfOn, emitIf]
  by_cases he : db.entries.length > 0 <;>
    by_cases ht : db.tags.length > 0 <;>
      by_cases hv : db.videos.length > 0 <;>
        cases p1 <;> cases p2 <;> cases p3 <;> cases p4 <;> cases p5 <;>
          simp [he, ht, hv]

lemma startupUpdate_flags (db : DbState) (st : Caps) :
    ((startupUpdate db st).1.suggestTags = decide (db.entries.length > 0)) ∧
    ((startupUpdate db st).1.tagList = decide (db.tags.length > 0)) ∧
    ((startupUpdate db st).1.tagsRes = decide (db.tags.length > 0)) ∧
    ((startupUpdate db st).1.entryRes = decide (db.entries.length > 0)) ∧
    ((startupUpdate db st).1.videoRes = decide (db.videos.length > 0)) := by
  obtain ⟨p1, p2, p3, p4, p5⟩ := st
  simp only [startupUpdate, updateResources, updatePrompts, enableIfOff, disableIfOn, emitIf]
  by_cases he : db.entries.length > 0 <;>
    by_cases ht : db.tags.length > 0 <;>
      by_cases hv : db.videos.length > 0 <;>
        cases p1 <;> cases p2 <;> cases p3 <;> cases p4 <;> cases p5 <;>
          simp [he, ht, hv]

/-! ### Claim C1 -/

/-- C1: for every sequence of domain mutations, after each database change
notification has been fully handled, each dynamic capability's enabled flag
equals its predicate on the post-mutation state: `suggest_tags` iff the entry
count is positive; the tag list/tag resources iff the tag count is positive;
the entry resource iff the entry count is positive; the video resource iff
the video-file count is positive. -/
theorem caps_track_predicates_after_each_tick
    (st0 : Caps) (pre : List DbState) (db : DbState) :
    ((runTicks (pre ++ [db]) st0).suggestTags = true ↔ 0 < db.entries.length) ∧
    ((runTicks (pre ++ [db]) st0).tagList = true ↔ 0 < db.tags.length) ∧
    ((runTicks (pre ++ [db]) st0).tagsRes = true ↔ 0 < db.tags.length) ∧
    ((runTicks (pre ++ [db]) st0).entryRes = true ↔ 0 < db.entries.length) ∧
    ((runTicks (pre ++ [db]) st0).videoRes = true ↔ 0 < db.videos.length) := by
  have hrw : runTicks (pre ++ [db]) st0 = (dbTick db (runTicks pre st0)).1 := by
    simp [runTicks, List.foldl_append]
  obtain ⟨h1, h2, h3, h4, h5⟩ := dbTick_flags db (runTicks pre st0)
  rw [hrw]
  rw [h1, h2, h3, h4, h5]
  simp

/-! ### Claim C2 -/

/-- Capability state with all five flags enabled, matching a database where
every predicate already holds. -/
def capsAllOn : Caps := ⟨true, true, true, true, true⟩

/-- A database snapshot with one entry, one tag and one video file. -/
def dbOneEach : DbState := ⟨[⟨1, "day one", "hello"⟩], [⟨1, "mood"⟩], ["wrapped-2025.mp4"]⟩

/-- C2 counterexample: a database-change tick on which no capability flag
flips still emits a (resource) list-changed notification, because
resources-solution.ts line 43 subscribes
`() => agent.server.sendResourceListChanged()` unconditionally.  This
refutes "a tick on which every flag is unchanged emits no notification". -/
theorem tick_without_flip_still_notifies :
    ¬ ((dbTick dbOneEach capsAllOn).1 = capsAllOn → (dbTick dbOneEach capsAllOn).2 = []) := by
  decide

/-- C2 (amended): every database-change tick emits the unconditional
resource-list-changed notification of resources-solution.ts line 43, plus
one list-changed notification per capability flag that actually flips; so a
tick emits `1 + (number of flips)` notifications — a tick with no flips
still emits exactly one, and simultaneous flips are not batched. -/
theorem tick_notification_count (db : DbState) (st : Caps) :
    (dbTick db st).2.length = 1 + flipCount db st := by
  obtain ⟨p1, p2, p3, p4, p5⟩ := st
  simp only [dbTick, updateResources, updatePrompts, enableIfOff, disableIfOn, emitIf, flipCount]
  by_cases he : db.entries.length > 0 <;>
    by_cases ht : db.tags.length > 0 <;>
      by_cases hv : db.videos.length > 0 <;>
        cases p1 <;> cases p2 <;> cases p3 <;> cases p4 <;> cases p5 <;>
          simp [he, ht, hv]

/-! ### Claim C3 -/

/-- C3: for every initial database state and arbitrary initial flags, the
startup recompute performed during `init()` (which runs before the transport
is connected) establishes the capability flags from the current counts and
emits no list-changed notification. -/
theorem startup_recompute_silent (db : DbState) (st0 : Caps) :
    (startupUpdate db st0).2 = [] ∧
    (((startupUpdate db st0).1.suggestTags = true ↔ 0 < db.entries.length) ∧
     ((startupUpdate db st0).1.tagList = true ↔ 0 < db.tags.length) ∧
     ((startupUpdate db st0).1.tagsRes = true ↔ 0 < db.tags.length) ∧
     ((startupUpdate db st0).1.entryRes = true ↔ 0 < db.entries.length) ∧
     ((startupUpdate db st0).1.videoRes = true ↔ 0 < db.videos.length)) := by
  constructor
  · obtain ⟨p1, p2, p3, p4, p5⟩ := st0
    simp only [startupUpdate, updateResources, updatePrompts, enableIfOff, disableIfOn, emitIf]
    by_cases he : db.entries.length > 0 <;>
      by_cases ht : db.tags.length > 0 <;>
        by_cases hv : db.videos.length > 0 <;>
          cases p1 <;> cases p2 <;> cases p3 <;> cases p4 <;> cases p5 <;>
            simp [he, ht, hv]
  · obtain ⟨h1, h2, h3, h4, h5⟩ := startupUpdate_flags db st0
    rw [h1, h2, h3, h4, h5]
    simp

/-! ## Identity subscription registry (subscriptions-solution.ts)

`uriSubscriptions` is a JS `Set<string>`: membership is the sole source of
truth, duplicate subscribes collapse, modelled as a `Finset String`. -/

/-- URI of a journal entry identity, `epicme://entries/{id}`. -/
def entryUri (id : Nat) : String := "epicme://entries/" ++ toString id

/-- URI of a tag identity, `epicme://tags/{id}`. -/
def tagUri (id : Nat) : String := "epicme://tags/" ++ toString id

/-- Change descriptor published by the db: optional lists of affected entry
ids and tag ids (`changes.entries`, `changes.tags`). -/
structure ChangeSet where
  entries : Option (List Nat)
  tags : Option (List Nat)
deriving Repr, DecidableEq

/-- Subscribe request handler: `uriSubscriptions.add(params.uri)`. -/
def subAdd (subs : Finset String) (uri : String) : Finset String := insert uri subs

/-- Unsubscribe request handler: `uriSubscriptions.delete(params.uri)`. -/
def subDelete (subs : Finset String) (uri : String) : Finset String := subs.erase uri

/-- Embedding of the db-change subscriber of subscriptions-solution.ts
(lines 71-95): for each affected entry id whose URI is subscribed, dispatch
one `notifications/resources/updated` with `{ uri, title: "Entry {id}" }`;
then likewise for affected tag ids with title `"Tag {id}"`. -/
def onDbChange (subs : Finset String) (ch : ChangeSet) : List (String × String) :=
  ((ch.entries.getD []).filterMap fun id =>
    if entryUri id ∈ subs then some (entryUri id, "Entry " ++ toString id) else none) ++
  ((ch.tags.getD []).filterMap fun id =>
    if tagUri id ∈ subs then some (tagUri id, "Tag " ++ toString id) else none)

lemma entryUri_ne_tagUri (a b : Nat) : entryUri a ≠ tagUri b := by
  intro h
  have h1 : (entryUri a).data.take 10 = (tagUri b).data.take 10 := by rw [h]
  rw [entryUri, tagUri] at h1
  have e1 : ("epicme://entries/" ++ toString a).data
      = "epicme://entries/".data ++ (toString a).data := rfl
  have e2 : ("epicme://tags/" ++ toString b).data
      = "epicme://tags/".data ++ (toString b).data := rfl
  rw [e1, e2] at h1
  rw [List.take_append_of_le_length (by decide),
    List.take_append_of_le_length (by decide)] at h1
  exact absurd h1 (by decide)

/-! ### Claim C4 -/

/-- C4: for every identity and every change descriptor — entry-only,
tag-only or mixed — if the descriptor lists the identity as affected, a
point notification carrying its URI and human-readable title is dispatched
iff the URI is currently in the subscription set; and after an unsubscribe
for that URI, no descriptor whatsoever dispatches a notification for it. -/
theorem point_notification_iff_subscribed (subs : Finset String) (ch : ChangeSet)
    (id : Nat) :
    (id ∈ ch.entries.getD [] →
      ((entryUri id, "Entry " ++ toString id) ∈ onDbChange subs ch ↔ entryUri id ∈ subs)) ∧
    (id ∈ ch.tags.getD [] →
      ((tagUri id, "Tag " ++ toString id) ∈ onDbChange subs ch ↔ tagUri id ∈ subs)) ∧
    (∀ title, (entryUri id, title) ∉ onDbChange (subDelete subs (entryUri id)) ch) ∧
    (∀ title, (tagUri id, title) ∉ onDbChange (subDelete subs (tagUri id)) ch) := by
  refine ⟨fun he => ⟨?_, ?_⟩, fun ht => ⟨?_, ?_⟩, ?_, ?_⟩
  · intro h
    rcases List.mem_append.mp h with hmem | hmem
    · obtain ⟨j, _, hf⟩ := List.mem_filterMap.mp hmem
      by_cases hs : entryUri j ∈ subs
      · simp only [hs, if_pos] at hf
        obtain ⟨huri, -⟩ := Prod.mk.injEq .. ▸ Option.some.inj hf
        rwa [huri] at hs
      · simp [hs] at hf
    · obtain ⟨j, _, hf⟩ := List.mem_filterMap.mp hmem
      by_cases hs : tagUri j ∈ subs
      · simp only [hs, if_pos] at hf
        obtain ⟨huri, -⟩ := Prod.mk.injEq .. ▸ Option.some.inj hf
        exact absurd huri.symm (entryUri_ne_tagUri id j)
      · simp [hs] at hf
  · intro hs
    exact List.mem_append.mpr (Or.inl (List.mem_filterMap.mpr ⟨id, he, by simp [hs]⟩))
  · intro h
    rcases List.mem_append.mp h with hmem | hmem
    · obtain ⟨j, _, hf⟩ := List.mem_filterMap.mp hmem
      by_cases hs : entryUri j ∈ subs
      · simp only [hs, if_pos] at hf
        obtain ⟨huri, -⟩ := Prod.mk.injEq .. ▸ Option.some.inj hf
        exact absurd huri (entryUri_ne_tagUri j id)
      · simp [hs] at hf
    · obtain ⟨j, _, hf⟩ := List.mem_filterMap.mp hmem
      by_cases hs : tagUri j ∈ subs
      · simp only [hs, if_pos] at hf
        obtain ⟨huri, -⟩ := Prod.mk.injEq .. ▸ Option.some.inj hf
        rwa [huri] at hs
      · simp [hs] at hf
  · intro hs
    exact List.mem_append.mpr (Or.inr (List.mem_filterMap.mpr ⟨id, ht, by simp [hs]⟩))
  · intro title h
    rcases List.mem_append.mp h with hmem | hmem
    · obtain ⟨j, _, hf⟩ := List.mem_filterMap.mp hmem
      by_cases hs : entryUri j ∈ subDelete subs (entryUri id)
      · simp only [hs, if_pos] at hf
        obtain ⟨huri, -⟩ := Prod.mk.injEq .. ▸ Option.some.inj hf
        rw [huri] at hs
        exact Finset.not_mem_erase _ _ hs
      · simp [hs] at hf
    · obtain ⟨j, _, hf⟩ := List.mem_filterMap.mp hmem
      by_cases hs : tagUri j ∈ subDelete subs (entryUri id)
      · simp only [hs, if_pos] at hf
        obtain ⟨huri, -⟩ := Prod.mk.injEq .. ▸ Option.some.inj hf
        exact absurd huri.symm (entryUri_ne_tagUri id j)
      · simp [hs] at hf
  · intro title h
    rcases List.mem_append.mp h with hmem | hmem
    · obtain ⟨j, _, hf⟩ := List.mem_filterMap.mp hmem
      by_cases hs : entryUri j ∈ subDelete subs (tagUri id)
      · simp only [hs, if_pos] at hf
        obtain ⟨huri, -⟩ := Prod.mk.injEq .. ▸ Option.some.inj hf
        exact absurd huri (entryUri_ne_tagUri j id)
      · simp [hs] at hf
    · obtain ⟨j, _, hf⟩ := List.mem_filterMap.mp hmem
      by_cases hs : tagUri j ∈ subDelete subs (tagUri id)
      · simp only [hs, if_pos] at hf
        obtain ⟨huri, -⟩ := Prod.mk.injEq .. ▸ Option.some.inj hf
        rw [huri] at hs
        exact Finset.not_mem_erase _ _ hs
      · simp [hs] at hf

/-- C4 witness: on a concrete entry-only change descriptor (no tag ids at
all), the subscribed entry URI gets its notification iff subscribed, and
after unsubscribing no notification for that URI remains. -/
theorem point_notification_iff_subscribed_witness :
    (1 ∈ (ChangeSet.mk (some [1, 2]) none).entries.getD []) ∧
    ((entryUri 1, "Entry " ++ toString 1) ∈
        onDbChange {entryUri 1, tagUri 7} (ChangeSet.mk (some [1, 2]) none) ↔
      entryUri 1 ∈ ({entryUri 1, tagUri 7} : Finset String)) ∧
    (∀ title, (entryUri 1, title) ∉
      onDbChange (subDelete {entryUri 1, tagUri 7} (entryUri 1))
        (ChangeSet.mk (some [1, 2]) none)) := by
  have h := point_notification_iff_subscribed {entryUri 1, tagUri 7}
    (ChangeSet.mk (some [1, 2]) none) 1
  exact ⟨by decide, h.1 (by decide), h.2.2.1⟩

/-! ## Derived-artifact pipeline (video.ts, `createWrappedVideo`) -/

/-- The cancellation error message thrown at the pre-flight check, at each
mock iteration, and at process close when the signal was aborted. -/
def cancelMsg (year : Int) : String :=
  "Creating Wrapped Video for " ++ toString year ++ " was cancelled"

/-- Output file name, `wrapped-{year}.mp4`. -/
def videoFilename (year : Int) : String := "wrapped-" ++ toString year ++ ".mp4"

/-- One step of
`entries.reduce((longest, entry) => entry.content.length > (longest?.content.length ?? 0) ? entry : longest, ...)`. -/
def longestStep (longest : Option Entry) (entry : Entry) : Option Entry :=
  if entry.content.length > (match longest with
    | some l => l.content.length
    | none => 0) then some entry else longest

/-- Embedding of the `longestEntry` reduce (video.ts lines 90-94).
`entries[0]` is `undefined` (`none`) exactly when the list is empty, and JS
`reduce` with an initial value folds over every element. -/
def longestEntry (entries : List Entry) : Option Entry :=
  entries.foldl longestStep entries.head?

/-- One step of
`entries.reduce((shortest, entry) => entry.content.length < (shortest?.content.length ?? 0) ? entry : shortest, ...)`. -/
def shortestStep (shortest : Option Entry) (entry : Entry) : Option Entry :=
  if entry.content.length < (match shortest with
    | some s => s.content.length
    | none => 0) then some entry else shortest

/-- Embedding of the `shortestEntry` reduce (video.ts lines 95-99). -/
def shortestEntry (entries : List Entry) : Option Entry :=
  entries.foldl shortestStep entries.head?

/-- One overlay spec `{ text, color, fontsize }`. -/
structure TextSpec where
  text : String
  color : String
  fontsize : Nat
deriving Repr, DecidableEq

/-- Embedding of the `texts` array construction (video.ts lines 101-164):
the ordered overlay sequence, with `null` entries removed by
`.filter(Boolean)`.  `username` stands for `userInfo().username` and
`dateStr` for `new Date().toLocaleDateString('en-US', ...)` — ambient
environment values read by the source, not part of the domain input. -/
def buildTexts (entries : List Entry) (tags : List Tag) (year : Int)
    (username dateStr : String) : List TextSpec :=
  ([ some { text := "Hello " ++ username ++ "!", color := "#FF1493", fontsize := 72 },
     some { text := "It is " ++ dateStr, color := "#33FF99", fontsize := 72 },
     some { text := "Here is your EpicMe wrapped video for " ++ toString year,
            color := "#66CCFF", fontsize := 72 },
     some { text := "You wrote " ++ toString entries.length ++ " entries in " ++ toString year,
            color := "#ff69b4", fontsize := 72 },
     (longestEntry entries).map (fun le =>
       { text := "Your longest entry was " ++ toString le.content.length ++
           " characters\n\"" ++ le.title ++ "\" ", color := "#FF0000", fontsize := 72 }),
     (shortestEntry entries).map (fun se =>
       { text := "Your shortest entry was " ++ toString se.content.length ++
           " characters\n\"" ++ se.title ++ "\" ", color := "#B39DDB", fontsize := 72 }),
     (if entries.length < 1 then
       some { text := "You did not write any entries in " ++ toString year,
              color := "#D2B48C", fontsize := 72 } else none),
     (if tags.length > 0 then
       some { text := "And you created " ++ toString tags.length ++ " tags in " ++ toString year,
              color := "#FFB300", fontsize := 72 }
     else
       some { text := "You did not create any tags in " ++ toString year,
              color := "#D2B48C", fontsize := 72 }),
     some { text := "Good job!", color := "red", fontsize := 72 },
     some { text := "Keep Journaling in " ++ toString (year + 1) ++ "!",
            color := "#ffa500", fontsize := 72 } ] : List (Option TextSpec)).reduceOption

/-- `totalDurationSeconds = 60`. -/
def totalDurationSeconds : ℚ := 60

/-- Embedding of the `timings` computation: for `n` overlay texts, text `i`
spans `[per * i, per * (i+1)]` with `per = 60 / n`. -/
def timings (n : Nat) : List (ℚ × ℚ) :=
  (List.range n).map fun i =>
    (totalDurationSeconds / n * i, totalDurationSeconds / n * (i + 1))

/-- A `time=HH:MM:SS.ff` match parsed out of one ffmpeg stderr chunk. -/
structure TimeStamp where
  hours : Nat
  minutes : Nat
  seconds : Nat
  fraction : Nat
deriving Repr, DecidableEq

/-- `currentSeconds = hours*3600 + minutes*60 + seconds + fraction/100`. -/
def parsedSeconds (t : TimeStamp) : ℚ :=
  (t.hours : ℚ) * 3600 + (t.minutes : ℚ) * 60 + (t.seconds : ℚ) + (t.fraction : ℚ) / 100

/-- Embedding of the stderr progress handler (video.ts lines 223-238): each
parsed timestamp is forwarded as `Math.min(currentSeconds / 60, 1)` —
clamped above at 1, with no comparison against previously forwarded values. -/
def forwardProgress (ts : List TimeStamp) : List ℚ :=
  ts.map fun t => min (parsedSeconds t / totalDurationSeconds) 1

/-- Embedding of the mock-mode loop (video.ts lines 74-85):
`for (let i = 0; i < mockTime; i += step)` with `step = mockTime / 10`; at
iteration `k` the loop variable is `i = k * (mockTime / 10)`.  Each
iteration first checks the abort signal (throwing the cancellation error),
computes `progress = i / mockTime`, breaks if `progress >= 1`, otherwise
reports `progress` and sleeps.  Returns the reported progress values in
order and the cancellation error if the signal aborted. -/
def mockLoopAux (mt : ℚ) (abortAt : Nat → Bool) (year : Int) (hmt : 0 < mt)
    (k : Nat) : List ℚ × Option String :=
  if hguard : (k : ℚ) * (mt / 10) < mt then
    if abortAt k then ([], some (cancelMsg year))
    else
      let progress := ((k : ℚ) * (mt / 10)) / mt
      if progress ≥ 1 then ([], none)
      else
        let rest := mockLoopAux mt abortAt year hmt (k + 1)
        (progress :: rest.1, rest.2)
  else ([], none)
termination_by 10 - k
decreasing_by
  have hpos : (0 : ℚ) < mt / 10 := by positivity
  have h10 : (10 : ℚ) * (mt / 10) = mt := by ring
  have hk : k < 10 := by
    by_contra hc
    push_neg at hc
    have hc10 : (10 : ℚ) ≤ (k : ℚ) := by exact_mod_cast hc
    nlinarith [hpos, h10, hguard, hc10]
  omega

/-- Input of `createWrappedVideo`: the filtered entries and tags, the target
year and the optional `mockTime`. -/
structure VideoInput where
  entries : List Entry
  tags : List Tag
  year : Int
  mockTime : Option ℚ

/-- Behaviour of the caller-provided `AbortSignal` over the run:
whether it is already aborted before any work begins, at which mock
iteration (if any) it is observed aborted, and whether it aborts mid-flight
while the real renderer process runs (in which case the registered `abort`
listener fires and the `close` handler later observes `signal.aborted`). -/
structure AbortSpec where
  preAborted : Bool
  mockAbortAt : Nat → Bool
  midAborted : Bool

/-- Behaviour of the spawned ffmpeg process: the parsed progress timestamps
it emits on stderr, and its exit code. -/
structure RenderRun where
  times : List TimeStamp
  exitCode : Int

instance instDecEqExcept {ε α : Type} [DecidableEq ε] [DecidableEq α] :
    DecidableEq (Except ε α) := fun a b =>
  match a, b with
  | Except.error x, Except.error y =>
    if h : x = y then isTrue (by rw [h])
    else isFalse (by intro hc; injection hc; contradiction)
  | Except.error _, Except.ok _ => isFalse (fun hc => Except.noConfusion hc)
  | Except.ok _, Except.error _ => isFalse (fun hc => Except.noConfusion hc)
  | Except.ok x, Except.ok y =>
    if h : x = y then isTrue (by rw [h])
    else isFalse (by intro hc; injection hc; contradiction)

/-- Observable trace of one `createWrappedVideo` call: the returned URI or
thrown error, whether an external process was spawned, whether the abort
listener killed it (`SIGKILL`), the ordered values passed to `onProgress`,
and whether `notifySubscribers()` was invoked (which on the real path
happens before the URI is returned). -/
structure VideoTrace where
  result : Except String String
  spawned : Bool
  killed : Bool
  progressLog : List ℚ
  notified : Bool
deriving Repr, DecidableEq

/-- Embedding of the real-renderer path (video.ts lines 196-275): spawn
ffmpeg, forward stderr progress, and on `close` check `signal.aborted`
first (cancellation wins even over exit code 0), then exit code 0 (report
progress 1, then `notifySubscribers()`, then return the URI), else fail
with the exit code.  The abort listener kills the process iff the signal
fired mid-flight. -/
def realRender (inp : VideoInput) (ab : AbortSpec) (rr : RenderRun) : VideoTrace :=
  if ab.midAborted then
    { result := Except.error (cancelMsg inp.year), spawned := true, killed := true,
      progressLog := forwardProgress rr.times, notified := false }
  else if rr.exitCode = 0 then
    { result := Except.ok ("epicme://videos/" ++ videoFilename inp.year),
      spawned := true, killed := false,
      progressLog := forwardProgress rr.times ++ [1], notified := true }
  else
    { result := Except.error ("ffmpeg exited with code " ++ toString rr.exitCode),
      spawned := true, killed := false,
      progressLog := forwardProgress rr.times, notified := false }

/-- Embedding of `createWrappedVideo` (video.ts lines 47-276).  Pre-flight:
if the signal is already aborted, throw the cancellation error before any
work.  Mock mode (`mockTime && mockTime > 0`): run the simulated loop, then
report progress 1 and return the URI — without calling
`notifySubscribers()`.  Otherwise run the real renderer path. -/
def createWrappedVideo (inp : VideoInput) (ab : AbortSpec) (rr : RenderRun) : VideoTrace :=
  if ab.preAborted then
    { result := Except.error (cancelMsg inp.year), spawned := false, killed := false,
      progressLog := [], notified := false }
  else
    match inp.mockTime with
    | some mt =>
      if hmt : 0 < mt then
        match mockLoopAux mt ab.mockAbortAt inp.year hmt 0 with
        | (plog, some msg) =>
          { result := Except.error msg, spawned := false, killed := false,
            progressLog := plog, notified := false }
        | (plog, none) =>
          { result := Except.ok ("epicme://videos/" ++ videoFilename inp.year),
            spawned := false, killed := false,
            progressLog := plog ++ [1], notified := false }
      else realRender inp ab rr
    | none => realRender inp ab rr

/-! ### Helper lemmas for the pipeline -/

lemma mockLoopAux_no_abort :
    ∀ (n k : Nat), k + n = 10 → ∀ (mt : ℚ) (hmt : 0 < mt) (y : Int),
      mockLoopAux mt (fun _ => false) y hmt k
        = ((List.range' k n).map fun j => ((j : ℚ) * (mt / 10)) / mt, none) := by
  intro n
  induction n with
  | zero =>
    intro k hk mt hmt y
    have hk10 : k = 10 := by omega
    subst hk10
    have hguard : ¬ ((10 : ℚ) * (mt / 10) < mt) := by
      have h10 : (10 : ℚ) * (mt / 10) = mt := by ring
      rw [h10]
      exact lt_irrefl mt
    rw [mockLoopAux]
    simp [hguard]
  | succ n ih =>
    intro k hk mt hmt y
    have hklt : k < 10 := by omega
    have hguard : (k : ℚ) * (mt / 10) < mt := by
      have hk10 : (k : ℚ) < 10 := by exact_mod_cast hklt
      have h10 : (10 : ℚ) * (mt / 10) = mt := by ring
      have hpos : (0 : ℚ) < mt / 10 := by positivity
      nlinarith
    have hprog : ¬ ((k : ℚ) * (mt / 10) / mt ≥ 1) := by
      rw [ge_iff_le, not_le]
      exact (div_lt_one hmt).mpr hguard
    rw [mockLoopAux]
    rw [dif_pos hguard]
    simp only [Bool.false_eq_true, if_false, if_neg hprog]
    rw [ih (k + 1) (by omega) mt hmt y]
    rw [List.range'_succ]
    simp

lemma mockLoopAux_bounds :
    ∀ (n k : Nat), k + n = 10 → ∀ (mt : ℚ) (hmt : 0 < mt) (y : Int) (ab : Nat → Bool),
      ∀ x ∈ (mockLoopAux mt ab y hmt k).1, 0 ≤ x ∧ x ≤ 1 := by
  intro n
  induction n with
  | zero =>
    intro k hk mt hmt y ab x hx
    have hk10 : k = 10 := by omega
    subst hk10
    have hguard : ¬ ((10 : ℚ) * (mt / 10) < mt) := by
      have h10 : (10 : ℚ) * (mt / 10) = mt := by ring
      rw [h10]
      exact lt_irrefl mt
    rw [mockLoopAux] at hx
    simp [hguard] at hx
  | succ n ih =>
    intro k hk mt hmt y ab x hx
    rw [mockLoopAux] at hx
    by_cases hguard : (k : ℚ) * (mt / 10) < mt
    · rw [dif_pos hguard] at hx
      by_cases hab : ab k
      · simp [hab] at hx
      · simp only [hab, if_false, Bool.false_eq_true] at hx
        by_cases hprog : (k : ℚ) * (mt / 10) / mt ≥ 1
        · simp [if_pos hprog] at hx
        · simp only [if_neg hprog, List.mem_cons] at hx
          rcases hx with rfl | hx
          · refine ⟨by positivity, ?_⟩
            exact le_of_lt ((div_lt_one hmt).mpr hguard)
          · exact ih (k + 1) (by omega) mt hmt y ab x hx
    · rw [dif_neg hguard] at hx
      simp at hx

lemma parsedSeconds_nonneg (t : TimeStamp) : 0 ≤ parsedSeconds t := by
  unfold parsedSeconds
  positivity

lemma forwardProgress_bounds (ts : List TimeStamp) :
    ∀ x ∈ forwardProgress ts, 0 ≤ x ∧ x ≤ 1 := by
  intro x hx
  simp only [forwardProgress, List.mem_map] at hx
  obtain ⟨t, -, rfl⟩ := hx
  refine ⟨le_min ?_ (by norm_num), min_le_right _ _⟩
  have h := parsedSeconds_nonneg t
  have h60 : (0 : ℚ) ≤ totalDurationSeconds := by norm_num [totalDurationSeconds]
  exact div_nonneg h h60

lemma forwardProgress_chain (ts : List TimeStamp)
    (h : List.Chain' (· ≤ ·) (ts.map parsedSeconds)) :
    List.Chain' (· ≤ ·) (forwardProgress ts) := by
  rw [List.chain'_map] at h
  unfold forwardProgress
  rw [List.chain'_map]
  refine List.Chain'.imp ?_ h
  intro a b hab
  refine min_le_min ?_ (le_refl 1)
  have h60 : (0 : ℚ) < totalDurationSeconds := by norm_num [totalDurationSeconds]
  exact (div_le_div_right h60).mpr hab

lemma chain'_append_one (l : List ℚ) (hle : ∀ x ∈ l, x ≤ 1)
    (h : List.Chain' (· ≤ ·) l) : List.Chain' (· ≤ ·) (l ++ [1]) := by
  rw [List.chain'_append]
  refine ⟨h, List.chain'_singleton 1, ?_⟩
  intro x hx y hy
  simp only [List.head?_cons, Option.mem_some_iff] at hy
  subst hy
  have hxl : x ∈ l := by
    cases hl : l.getLast? with
    | none => rw [hl] at hx; simp at hx
    | some a =>
      rw [hl] at hx
      simp only [Option.mem_some_iff] at hx
      subst hx
      exact List.mem_of_mem_getLast? (hl ▸ rfl)
  exact hle x hxl

/-! ### Claim C5 -/

/-- C5: for every `createWrappedVideo` call, a signal already aborted before
any work begins makes the call terminate with the cancellation error and no
external process is spawned; a signal aborted mid-flight on the real path
means the renderer process is killed and the outcome is the cancellation
error — for every exit code, including the success code 0. -/
theorem cancellation_outcome (inp : VideoInput) (ab : AbortSpec) (rr : RenderRun) :
    (ab.preAborted = true →
      (createWrappedVideo inp ab rr).result = Except.error (cancelMsg inp.year) ∧
      (createWrappedVideo inp ab rr).spawned = false) ∧
    (inp.mockTime = none → ab.preAborted = false → ab.midAborted = true →
      (createWrappedVideo inp ab rr).killed = true ∧
      (createWrappedVideo inp ab rr).result = Except.error (cancelMsg inp.year)) := by
  constructor
  · intro hpre
    simp [createWrappedVideo, hpre]
  · intro hm hpre hmid
    simp [createWrappedVideo, hpre, hm, realRender, hmid]

/-- Concrete pre-aborted call. -/
def preAbortSpec : AbortSpec := ⟨true, fun _ => false, false⟩

/-- Concrete mid-flight-aborted call whose renderer would exit with code 0. -/
def midAbortSpec : AbortSpec := ⟨false, fun _ => false, true⟩

/-- Concrete real-mode input for the cancellation witness. -/
def realInput : VideoInput := ⟨[], [], 2025, none⟩

/-- Concrete renderer run exiting successfully (code 0). -/
def okRun : RenderRun := ⟨[], 0⟩

/-- C5 witness: at a concrete input, a pre-aborted signal yields the
cancellation error with nothing spawned, and a mid-flight abort with exit
code 0 yields a killed process and the cancellation error. -/
theorem cancellation_outcome_witness :
    (preAbortSpec.preAborted = true ∧
      (createWrappedVideo realInput preAbortSpec okRun).result
          = Except.error (cancelMsg realInput.year) ∧
      (createWrappedVideo realInput preAbortSpec okRun).spawned = false) ∧
    (realInput.mockTime = none ∧ midAbortSpec.preAborted = false ∧
      midAbortSpec.midAborted = true ∧ okRun.exitCode = 0 ∧
      (createWrappedVideo realInput midAbortSpec okRun).killed = true ∧
      (createWrappedVideo realInput midAbortSpec okRun).result
          = Except.error (cancelMsg realInput.year)) := by
  have h1 := (cancellation_outcome realInput preAbortSpec okRun).1 rfl
  have h2 := (cancellation_outcome realInput midAbortSpec okRun).2 rfl rfl rfl
  exact ⟨⟨rfl, h1.1, h1.2⟩, rfl, rfl, rfl, rfl, h2.1, h2.2⟩

/-! ### Case characterization of `createWrappedVideo` -/

lemma createWrappedVideo_spec (inp : VideoInput) (ab : AbortSpec) (rr : RenderRun)
    (hpre : ab.preAborted = false) :
    (createWrappedVideo inp ab rr = realRender inp ab rr ∧
      (inp.mockTime = none ∨ ∃ mt, inp.mockTime = some mt ∧ ¬ 0 < mt)) ∨
    (∃ (mt : ℚ) (h0 : 0 < mt) (plog : List ℚ) (msg : String), inp.mockTime = some mt ∧
      mockLoopAux mt ab.mockAbortAt inp.year h0 0 = (plog, some msg) ∧
      createWrappedVideo inp ab rr =
        { result := Except.error msg, spawned := false, killed := false,
          progressLog := plog, notified := false }) ∨
    (∃ (mt : ℚ) (h0 : 0 < mt) (plog : List ℚ), inp.mockTime = some mt ∧
      mockLoopAux mt ab.mockAbortAt inp.year h0 0 = (plog, none) ∧
      createWrappedVideo inp ab rr =
        { result := Except.ok ("epicme://videos/" ++ videoFilename inp.year),
          spawned := false, killed := false,
          progressLog := plog ++ [1], notified := false }) := by
  unfold createWrappedVideo
  rw [hpre]
  simp only [Bool.false_eq_true, if_false]
  cases hmtv : inp.mockTime with
  | none => exact Or.inl ⟨rfl, Or.inl rfl⟩
  | some mt =>
    dsimp only
    by_cases h0 : 0 < mt
    · rw [dif_pos h0]
      rcases hloop : mockLoopAux mt ab.mockAbortAt inp.year h0 0 with ⟨plog, msg?⟩
      cases msg? with
      | some msg =>
        exact Or.inr (Or.inl ⟨mt, h0, plog, msg, rfl, hloop, rfl⟩)
      | none =>
        exact Or.inr (Or.inr ⟨mt, h0, plog, rfl, hloop, rfl⟩)
    · rw [dif_neg h0]
      exact Or.inl ⟨rfl, Or.inr ⟨mt, rfl, h0⟩⟩

lemma realRender_bounds (inp : VideoInput) (ab : AbortSpec) (rr : RenderRun) :
    ∀ x ∈ (realRender inp ab rr).progressLog, 0 ≤ x ∧ x ≤ 1 := by
  intro x hx
  unfold realRender at hx
  by_cases hmid : ab.midAborted = true
  · rw [if_pos hmid] at hx
    exact forwardProgress_bounds _ x hx
  · rw [if_neg hmid] at hx
    by_cases hec : rr.exitCode = 0
    · rw [if_pos hec] at hx
      rcases List.mem_append.mp hx with h | h
      · exact forwardProgress_bounds _ x h
      · simp only [List.mem_singleton] at h
        subst h
        norm_num
    · rw [if_neg hec] at hx
      exact forwardProgress_bounds _ x hx

lemma realRender_last (inp : VideoInput) (ab : AbortSpec) (rr : RenderRun) (uri : String)
    (h : (realRender inp ab rr).result = Except.ok uri) :
    (realRender inp ab rr).progressLog.getLast? = some 1 := by
  unfold realRender at h ⊢
  by_cases hmid : ab.midAborted = true
  · rw [if_pos hmid] at h
    simp at h
  · rw [if_neg hmid] at h ⊢
    by_cases hec : rr.exitCode = 0
    · rw [if_pos hec]
      exact List.getLast?_concat _
    · rw [if_neg hec] at h
      simp at h

lemma realRender_chain (inp : VideoInput) (ab : AbortSpec) (rr : RenderRun)
    (h : List.Chain' (· ≤ ·) (rr.times.map parsedSeconds)) :
    List.Chain' (· ≤ ·) (realRender inp ab rr).progressLog := by
  have hf := forwardProgress_chain rr.times h
  unfold realRender
  by_cases hmid : ab.midAborted = true
  · rw [if_pos hmid]
    exact hf
  · rw [if_neg hmid]
    by_cases hec : rr.exitCode = 0
    · rw [if_pos hec]
      exact chain'_append_one _ (fun x hx => (forwardProgress_bounds rr.times x hx).2) hf
    · rw [if_neg hec]
      exact hf

/-! ### Claim C6 -/

/-- Concrete real-mode run whose parsed progress reports go backwards:
stderr reports `time=00:00:02.00` then `time=00:00:01.00`. -/
def backwardsRun : RenderRun := ⟨[⟨0, 0, 2, 0⟩, ⟨0, 0, 1, 0⟩], 0⟩

/-- Concrete abort behaviour that never aborts. -/
def neverAbort : AbortSpec := ⟨false, fun _ => false, false⟩

/-- C6 counterexample: on a successful real-mode run whose renderer reports a
time lower than the previous one, the values passed to `onProgress` are
`[1/30, 1/60, 1]` — the lower report is forwarded, not discarded, and the
forwarded sequence is not non-decreasing.  This refutes the claim that the
forwarded sequence is always non-decreasing with lower reports discarded. -/
theorem progress_not_monotone :
    (createWrappedVideo realInput neverAbort backwardsRun).progressLog
        = [1/30, 1/60, 1] ∧
    ¬ List.Chain' (· ≤ ·)
        (createWrappedVideo realInput neverAbort backwardsRun).progressLog := by
  have hlog : (createWrappedVideo realInput neverAbort backwardsRun).progressLog
      = [1/30, 1/60, 1] := by
    norm_num [createWrappedVideo, realInput, neverAbort, backwardsRun, realRender,
      forwardProgress, parsedSeconds, totalDurationSeconds, min_def]
  refine ⟨hlog, ?_⟩
  rw [hlog]
  intro hchain
  rw [List.chain'_cons] at hchain
  have := hchain.1
  norm_num at this

/-- C6 (amended): every value forwarded to `onProgress` lies in `[0, 1]`
(clamping), and on success the final forwarded value is `1`; in real mode
the forwarded sequence is non-decreasing whenever the renderer's parsed
progress reports are non-decreasing (each report is forwarded unfiltered, so
monotonicity is inherited, not enforced); in mock mode (no abort) the
forwarded sequence is exactly `0, 1/10, …, 9/10, 1`. -/
theorem progress_contract (inp : VideoInput) (ab : AbortSpec) (rr : RenderRun)
    (hpre : ab.preAborted = false) :
    (∀ x ∈ (createWrappedVideo inp ab rr).progressLog, 0 ≤ x ∧ x ≤ 1) ∧
    (∀ uri, (createWrappedVideo inp ab rr).result = Except.ok uri →
      (createWrappedVideo inp ab rr).progressLog.getLast? = some 1) ∧
    (inp.mockTime = none → List.Chain' (· ≤ ·) (rr.times.map parsedSeconds) →
      List.Chain' (· ≤ ·) (createWrappedVideo inp ab rr).progressLog) ∧
    (∀ mt, inp.mockTime = some mt → 0 < mt → ab.mockAbortAt = (fun _ => false) →
      (createWrappedVideo inp ab rr).progressLog
        = ((List.range' 0 10).map fun j => (j : ℚ) / 10) ++ [1]) := by
  rcases createWrappedVideo_spec inp ab rr hpre with
    ⟨heq, -⟩ | ⟨mt, h0, plog, msg, hmt, hloop, heq⟩ | ⟨mt, h0, plog, hmt, hloop, heq⟩
  · refine ⟨?_, ?_, ?_, ?_⟩
    · rw [heq]
      exact realRender_bounds inp ab rr
    · intro uri hres
      rw [heq] at hres ⊢
      exact realRender_last inp ab rr uri hres
    · intro _ hchain
      rw [heq]
      exact realRender_chain inp ab rr hchain
    · intro mt hmt h0 hab
      rcases createWrappedVideo_spec inp ab rr hpre with
        ⟨-, hcase⟩ | ⟨mt', h0', plog, msg, hmt', hloop, -⟩ | ⟨mt', h0', plog, hmt', hloop, heq'⟩
      · rcases hcase with hnone | ⟨mt', hsome, hneg⟩
        · rw [hmt] at hnone
          exact absurd hnone (by simp)
        · rw [hmt] at hsome
          obtain rfl : mt = mt' := by injection hsome
          exact absurd h0 hneg
      · rw [hmt] at hmt'
        obtain rfl : mt = mt' := by injection hmt'
        rw [hab] at hloop
        rw [mockLoopAux_no_abort 10 0 rfl mt h0' inp.year] at hloop
        simp at hloop
      · rw [hmt] at hmt'
        obtain rfl : mt = mt' := by injection hmt'
        rw [hab] at hloop
        rw [mockLoopAux_no_abort 10 0 rfl mt h0' inp.year] at hloop
        have hplog : plog = (List.range' 0 10).map fun j => ((j : ℚ) * (mt / 10)) / mt := by
          have := congrArg Prod.fst hloop
          simpa using this.symm
        rw [heq', hplog]
        dsimp only
        congr 1
        refine List.map_congr_left ?_
        intro j _
        rw [div_eq_div_iff (by positivity) (by norm_num : (10 : ℚ) ≠ 0)]
        ring
  · refine ⟨?_, ?_, ?_, ?_⟩
    · rw [heq]
      exact fun x hx => mockLoopAux_bounds 10 0 rfl mt h0 inp.year ab.mockAbortAt x
        ((congrArg Prod.fst hloop ▸ hx : x ∈ (mockLoopAux mt ab.mockAbortAt inp.year h0 0).1))
    · intro uri hres
      rw [heq] at hres
      simp at hres
    · intro hnone _
      rw [hmt] at hnone
      exact absurd hnone (by simp)
    · intro mt' hmt' _ hab
      rw [hmt] at hmt'
      obtain rfl : mt = mt' := by injection hmt'
      rw [hab] at hloop
      rw [mockLoopAux_no_abort 10 0 rfl mt h0 inp.year] at hloop
      simp at hloop
  · refine ⟨?_, ?_, ?_, ?_⟩
    · rw [heq]
      intro x hx
      dsimp only at hx
      rcases List.mem_append.mp hx with h | h
      · exact mockLoopAux_bounds 10 0 rfl mt h0 inp.year ab.mockAbortAt x
          ((congrArg Prod.fst hloop ▸ h : x ∈ (mockLoopAux mt ab.mockAbortAt inp.year h0 0).1))
      · simp only [List.mem_singleton] at h
        subst h
        norm_num
    · intro uri _
      rw [heq]
      exact List.getLast?_concat _
    · intro hnone _
      rw [hmt] at hnone
      exact absurd hnone (by simp)
    · intro mt' hmt' _ hab
      rw [hmt] at hmt'
      obtain rfl : mt = mt' := by injection hmt'
      rw [hab] at hloop
      rw [mockLoopAux_no_abort 10 0 rfl mt h0 inp.year] at hloop
      have hplog : plog = (List.range' 0 10).map fun j => ((j : ℚ) * (mt / 10)) / mt := by
        have := congrArg Prod.fst hloop
        simpa using this.symm
      rw [heq, hplog]
      dsimp only
      congr 1
      refine List.map_congr_left ?_
      intro j _
      rw [div_eq_div_iff (by positivity) (by norm_num : (10 : ℚ) ≠ 0)]
      ring

/-- C6 witness: on a concrete successful real run with monotone reports, all
forwarded values are in `[0, 1]` and the final value is `1`. -/
theorem progress_contract_witness :
    neverAbort.preAborted = false ∧
    (∀ x ∈ (createWrappedVideo realInput neverAbort okRun).progressLog, 0 ≤ x ∧ x ≤ 1) ∧
    ((createWrappedVideo realInput neverAbort okRun).result
        = Except.ok ("epicme://videos/" ++ videoFilename 2025) →
      (createWrappedVideo realInput neverAbort okRun).progressLog.getLast? = some 1) := by
  have h := progress_contract realInput neverAbort okRun rfl
  exact ⟨rfl, h.1, h.2.1 _⟩

/-! ### Claim C7 -/

/-- `e` is the first entry of `l` attaining the maximum content length:
everything before it is strictly shorter, everything after it no longer. -/
def isFirstMax (l : List Entry) (e : Entry) : Prop :=
  ∃ l₁ l₂, l = l₁ ++ e :: l₂ ∧
    (∀ x ∈ l₁, x.content.length < e.content.length) ∧
    (∀ x ∈ l₂, x.content.length ≤ e.content.length)

/-- `e` is the first entry of `l` attaining the minimum content length. -/
def isFirstMin (l : List Entry) (e : Entry) : Prop :=
  ∃ l₁ l₂, l = l₁ ++ e :: l₂ ∧
    (∀ x ∈ l₁, e.content.length < x.content.length) ∧
    (∀ x ∈ l₂, e.content.length ≤ x.content.length)

lemma foldl_longestStep (l : List Entry) : ∀ acc : Entry,
    (l.foldl longestStep (some acc) = some acc ∧
      ∀ x ∈ l, x.content.length ≤ acc.content.length) ∨
    (∃ l₁ r l₂, l = l₁ ++ r :: l₂ ∧ l.foldl longestStep (some acc) = some r ∧
      acc.content.length < r.content.length ∧
      (∀ x ∈ l₁, x.content.length < r.content.length) ∧
      (∀ x ∈ l₂, x.content.length ≤ r.content.length)) := by
  induction l with
  | nil =>
    intro acc
    exact Or.inl ⟨rfl, by simp⟩
  | cons x t ih =>
    intro acc
    rw [List.foldl_cons]
    by_cases hx : x.content.length > acc.content.length
    · have hstep : longestStep (some acc) x = some x := by
        simp [longestStep, hx]
      rw [hstep]
      rcases ih x with ⟨heq, hall⟩ | ⟨l₁, r, l₂, hdec, hfold, hlt, hpre, hpost⟩
      · exact Or.inr ⟨[], x, t, by simp, heq, hx, by simp, hall⟩
      · refine Or.inr ⟨x :: l₁, r, l₂, by rw [hdec, List.cons_append], hfold,
          lt_trans hx hlt, ?_, hpost⟩
        intro y hy
        rcases List.mem_cons.mp hy with rfl | hy
        · exact hlt
        · exact hpre y hy
    · have hx' : x.content.length ≤ acc.content.length := le_of_not_lt hx
      have hstep : longestStep (some acc) x = some acc := by
        simp [longestStep, hx]
      rw [hstep]
      rcases ih acc with ⟨heq, hall⟩ | ⟨l₁, r, l₂, hdec, hfold, hlt, hpre, hpost⟩
      · refine Or.inl ⟨heq, ?_⟩
        intro y hy
        rcases List.mem_cons.mp hy with rfl | hy
        · exact hx'
        · exact hall y hy
      · refine Or.inr ⟨x :: l₁, r, l₂, by rw [hdec, List.cons_append], hfold, hlt, ?_, hpost⟩
        intro y hy
        rcases List.mem_cons.mp hy with rfl | hy
        · exact lt_of_le_of_lt hx' hlt
        · exact hpre y hy

lemma foldl_shortestStep (l : List Entry) : ∀ acc : Entry,
    (l.foldl shortestStep (some acc) = some acc ∧
      ∀ x ∈ l, acc.content.length ≤ x.content.length) ∨
    (∃ l₁ r l₂, l = l₁ ++ r :: l₂ ∧ l.foldl shortestStep (some acc) = some r ∧
      r.content.length < acc.content.length ∧
      (∀ x ∈ l₁, r.content.length < x.content.length) ∧
      (∀ x ∈ l₂, r.content.length ≤ x.content.length)) := by
  induction l with
  | nil =>
    intro acc
    exact Or.inl ⟨rfl, by simp⟩
  | cons x t ih =>
    intro acc
    rw [List.foldl_cons]
    by_cases hx : x.content.length < acc.content.length
    · have hstep : shortestStep (some acc) x = some x := by
        simp [shortestStep, hx]
      rw [hstep]
      rcases ih x with ⟨heq, hall⟩ | ⟨l₁, r, l₂, hdec, hfold, hlt, hpre, hpost⟩
      · exact Or.inr ⟨[], x, t, by simp, heq, hx, by simp, hall⟩
      · refine Or.inr ⟨x :: l₁, r, l₂, by rw [hdec, List.cons_append], hfold,
          lt_trans hlt hx, ?_, hpost⟩
        intro y hy
        rcases List.mem_cons.mp hy with rfl | hy
        · exact hlt
        · exact hpre y hy
    · have hx' : acc.content.length ≤ x.content.length := le_of_not_lt hx
      have hstep : shortestStep (some acc) x = some acc := by
        simp [shortestStep, hx]
      rw [hstep]
      rcases ih acc with ⟨heq, hall⟩ | ⟨l₁, r, l₂, hdec, hfold, hlt, hpre, hpost⟩
      · refine Or.inl ⟨heq, ?_⟩
        intro y hy
        rcases List.mem_cons.mp hy with rfl | hy
        · exact hx'
        · exact hall y hy
      · refine Or.inr ⟨x :: l₁, r, l₂, by rw [hdec, List.cons_append], hfold, hlt, ?_, hpost⟩
        intro y hy
        rcases List.mem_cons.mp hy with rfl | hy
        · exact lt_of_lt_of_le hlt hx'
        · exact hpre y hy

/-- C7 (amended): the longest/shortest entry selection is a deterministic
function of the entries alone, and on ties for the maximum (resp. minimum)
content length the first entry in input order is selected; the overlay
sequence is deterministic only given the input together with the ambient
username and current date (which the source reads via `userInfo()` and
`new Date()`). -/
theorem longest_shortest_first_encountered (l : List Entry) (h : l ≠ []) :
    (∃ e, longestEntry l = some e ∧ isFirstMax l e) ∧
    (∃ e, shortestEntry l = some e ∧ isFirstMin l e) := by
  obtain ⟨a, t, rfl⟩ : ∃ a t, l = a :: t := by
    cases l with
    | nil => exact absurd rfl h
    | cons a t => exact ⟨a, t, rfl⟩
  constructor
  · have hinit : longestEntry (a :: t) = t.foldl longestStep (some a) := by
      unfold longestEntry
      rw [List.head?_cons, List.foldl_cons]
      have : longestStep (some a) a = some a := by simp [longestStep]
      rw [this]
    rcases foldl_longestStep t a with ⟨heq, hall⟩ | ⟨l₁, r, l₂, hdec, hfold, hlt, hpre, hpost⟩
    · exact ⟨a, by rw [hinit, heq], [], t, rfl, by simp, hall⟩
    · refine ⟨r, by rw [hinit, hfold], a :: l₁, l₂, by rw [hdec, List.cons_append], ?_, hpost⟩
      intro y hy
      rcases List.mem_cons.mp hy with rfl | hy
      · exact hlt
      · exact hpre y hy
  · have hinit : shortestEntry (a :: t) = t.foldl shortestStep (some a) := by
      unfold shortestEntry
      rw [List.head?_cons, List.foldl_cons]
      have : shortestStep (some a) a = some a := by simp [shortestStep]
      rw [this]
    rcases foldl_shortestStep t a with ⟨heq, hall⟩ | ⟨l₁, r, l₂, hdec, hfold, hlt, hpre, hpost⟩
    · exact ⟨a, by rw [hinit, heq], [], t, rfl, by simp, hall⟩
    · refine ⟨r, by rw [hinit, hfold], a :: l₁, l₂, by rw [hdec, List.cons_append], ?_, hpost⟩
      intro y hy
      rcases List.mem_cons.mp hy with rfl | hy
      · exact hlt
      · exact hpre y hy

/-- Entries with a tie for the maximum content length ("aa" and "bb") and a
unique minimum ("c"). -/
def tieEntries : List Entry := [⟨1, "first", "aa"⟩, ⟨2, "second", "bb"⟩, ⟨3, "third", "c"⟩]

/-- C7 witness: on a concrete list with a tie for the longest entry, the
first such entry is selected, and the characterization holds. -/
theorem longest_shortest_first_encountered_witness :
    tieEntries ≠ [] ∧
    ((∃ e, longestEntry tieEntries = some e ∧ isFirstMax tieEntries e) ∧
     (∃ e, shortestEntry tieEntries = some e ∧ isFirstMin tieEntries e)) ∧
    longestEntry tieEntries = some ⟨1, "first", "aa"⟩ ∧
    shortestEntry tieEntries = some ⟨3, "third", "c"⟩ :=
  ⟨by decide, longest_shortest_first_encountered tieEntries (by decide),
    by decide, by decide⟩

/-- C7 counterexample: the generated overlay sequence is not a function of
the `(entries, tags, year)` input alone — two runs with identical input but
different ambient dates (the source interpolates `new Date()` into the
second overlay) produce different overlay sequences.  This refutes
"the generated overlay sequence is identical on every run with the same
input". -/
theorem scene_construction_reads_ambient_state :
    ¬ (∀ u₁ d₁ u₂ d₂ : String,
        buildTexts [] [] 2025 u₁ d₁ = buildTexts [] [] 2025 u₂ d₂) := by
  intro h
  exact absurd (h "user" "January 1, 2025" "user" "January 2, 2025") (by decide)

/-! ### Claim C8 -/

/-- Concrete mock-mode input (`mockTime = 10`). -/
def mockInput : VideoInput := ⟨[], [], 2025, some 10⟩

lemma mock_run_eval :
    createWrappedVideo mockInput neverAbort okRun =
      { result := Except.ok ("epicme://videos/" ++ videoFilename 2025),
        spawned := false, killed := false,
        progressLog :=
          ((List.range' 0 10).map fun j => ((j : ℚ) * (10 / 10)) / 10) ++ [1],
        notified := false } := by
  unfold createWrappedVideo mockInput neverAbort
  dsimp only
  rw [dif_pos (by norm_num : (0 : ℚ) < 10)]
  rw [mockLoopAux_no_abort 10 0 rfl 10 (by norm_num) 2025]
  rfl

/-- C8 counterexample: a successful mock-mode run returns the video URI
without ever invoking the registered video-change subscribers —
`notifySubscribers()` (video.ts line 272) is reached only on the real
path, while mock mode returns at line 87.  This refutes "in both modes the
pipeline notifies the media-watcher subscribers before returning". -/
theorem mock_success_does_not_notify :
    ¬ (((createWrappedVideo mockInput neverAbort okRun).result
          = Except.ok ("epicme://videos/" ++ videoFilename 2025)) →
        (createWrappedVideo mockInput neverAbort okRun).notified = true) := by
  rw [mock_run_eval]
  simp

/-- C8 (amended): on the real path, `notifySubscribers()` is invoked
(before the URI is returned) exactly on success — no pre-flight abort, no
mid-flight abort and exit code 0; a mock-mode run never invokes the
subscribers, even on success. -/
theorem notify_iff_real_success (inp : VideoInput) (ab : AbortSpec) (rr : RenderRun) :
    (inp.mockTime = none →
      ((createWrappedVideo inp ab rr).notified = true ↔
        (ab.preAborted = false ∧ ab.midAborted = false ∧ rr.exitCode = 0))) ∧
    (∀ mt, inp.mockTime = some mt → 0 < mt →
      (createWrappedVideo inp ab rr).notified = false) := by
  constructor
  · intro hm
    cases hpre : ab.preAborted with
    | true =>
      unfold createWrappedVideo
      rw [if_pos hpre]
      simp [hpre]
    | false =>
      rcases createWrappedVideo_spec inp ab rr hpre with
        ⟨heq, -⟩ | ⟨mt, h0, plog, msg, hmt, -, -⟩ | ⟨mt, h0, plog, hmt, -, -⟩
      · rw [heq]
        unfold realRender
        cases hmid : ab.midAborted with
        | true => simp [hmid]
        | false =>
          by_cases hec : rr.exitCode = 0
          · simp [hec]
          · simp [hec]
      · rw [hm] at hmt
        exact absurd hmt (by simp)
      · rw [hm] at hmt
        exact absurd hmt (by simp)
  · intro mt hmt h0
    cases hpre : ab.preAborted with
    | true =>
      unfold createWrappedVideo
      rw [if_pos hpre]
    | false =>
      rcases createWrappedVideo_spec inp ab rr hpre with
        ⟨-, hcase⟩ | ⟨mt', h0', plog, msg, hmt', -, heq⟩ | ⟨mt', h0', plog, hmt', -, heq⟩
      · rcases hcase with hnone | ⟨mt'', hsome, hneg⟩
        · rw [hmt] at hnone
          exact absurd hnone (by simp)
        · rw [hmt] at hsome
          obtain rfl : mt = mt'' := by injection hsome
          exact absurd h0 hneg
      · rw [heq]
      · rw [heq]

/-- C8 witness: at concrete inputs, the real-mode iff holds, and a concrete
mock run has `notified = false`. -/
theorem notify_iff_real_success_witness :
    (realInput.mockTime = none ∧
      ((createWrappedVideo realInput neverAbort okRun).notified = true ↔
        (neverAbort.preAborted = false ∧ neverAbort.midAborted = false ∧
          okRun.exitCode = 0))) ∧
    (mockInput.mockTime = some 10 ∧ (0 : ℚ) < 10 ∧
      (createWrappedVideo mockInput neverAbort okRun).notified = false) :=
  ⟨⟨rfl, (notify_iff_real_success realInput neverAbort okRun).1 rfl⟩,
    rfl, by norm_num,
    (notify_iff_real_success mockInput neverAbort okRun).2 10 rfl (by norm_num)⟩

/-! ## Video subscriber bus (video.ts, `subscribe` / `notifySubscribers`) -/

/-- Embedding of `notifySubscribers()` (video.ts lines 41-45):
`for (const subscriber of subscribers) { subscriber() }` — each currently
registered subscriber is invoked in registration order with no try/catch.  A
subscriber is modelled by what its invocation does: return (`Except.ok ()`)
or throw (`Except.error e`).  Returns how many subscribers were invoked and
the exception propagated to the caller, if any. -/
def notifySubscribers {E : Type} : List (Except E Unit) → Nat × Option E
  | [] => (0, none)
  | Except.ok _ :: t =>
    ((notifySubscribers t).1 + 1, (notifySubscribers t).2)
  | Except.error e :: _ => (1, some e)

/-! ### Claim C9 -/

/-- C9 counterexample: with two registered subscribers of which the first
throws, only one subscriber is invoked and the exception propagates to the
publisher — there is no per-handler catch in `notifySubscribers()`.  This
refutes "the failure is caught per-handler, the remaining handlers still
run, and the error does not propagate". -/
theorem throwing_subscriber_halts_dispatch :
    ¬ ((notifySubscribers [Except.error "boom", Except.ok ()]).1 = 2 ∧
       (notifySubscribers [Except.error "boom", Except.ok ()]).2 = none) := by
  decide

/-- C9 (amended): subscribers run in registration order, but the first
throwing subscriber stops the dispatch — the subscribers before it and the
throwing one itself are invoked, the ones after it are not, and the
exception propagates to the publisher; when no subscriber throws, all are
invoked and nothing propagates. -/
theorem dispatch_stops_at_first_throw {E : Type} (pre : List (Except E Unit)) (e : E)
    (post : List (Except E Unit)) (hpre : ∀ x ∈ pre, x = Except.ok ()) :
    notifySubscribers (pre ++ Except.error e :: post) = (pre.length + 1, some e) ∧
    notifySubscribers pre = (pre.length, none) := by
  induction pre with
  | nil => simp [notifySubscribers]
  | cons x t ih =>
    have hx : x = Except.ok () := hpre x (List.mem_cons_self x t)
    subst hx
    have ht := ih fun y hy => hpre y (List.mem_cons_of_mem _ hy)
    constructor
    · rw [List.cons_append]
      simp only [notifySubscribers, ht.1, List.length_cons]
    · simp only [notifySubscribers, ht.2, List.length_cons]

/-- C9 witness: with two well-behaved subscribers, a throwing one and one
more after it, exactly three subscribers run and the error propagates; the
two well-behaved ones alone all run with no propagation. -/
theorem dispatch_stops_at_first_throw_witness :
    (∀ x ∈ ([Except.ok (), Except.ok ()] : List (Except String Unit)),
      x = Except.ok ()) ∧
    (notifySubscribers
        (([Except.ok (), Except.ok ()] : List (Except String Unit)) ++
          Except.error "boom" :: [Except.ok ()]) = (3, some "boom") ∧
      notifySubscribers ([Except.ok (), Except.ok ()] : List (Except String Unit))
        = (2, none)) :=
  ⟨by decide,
    dispatch_stops_at_first_throw [Except.ok (), Except.ok ()] "boom" [Except.ok ()]
      (by decide)⟩

/-! ## Delete tools (tools.ts, `delete_entry` / `delete_tag`) -/

/-- Modelled from the spec: the record store (`db/index.ts` is not among the
provided sources) is a plain keyed-record CRUD repository — `getEntry`
returns the record with the given id if any. -/
def getEntry (db : List Entry) (id : Nat) : Option Entry :=
  db.find? fun e => e.id = id

/-- Modelled from the spec: `deleteEntry` removes the record with the given
id from the keyed table. -/
def deleteEntry (db : List Entry) (id : Nat) : List Entry :=
  db.filter fun e => e.id ≠ id

/-- Modelled from the spec: keyed lookup of a tag. -/
def getTag (db : List Tag) (id : Nat) : Option Tag :=
  db.find? fun t => t.id = id

/-- Modelled from the spec: keyed deletion of a tag. -/
def deleteTag (db : List Tag) (id : Nat) : List Tag :=
  db.filter fun t => t.id ≠ id

/-- Structured content `{ success, entry }` returned by `delete_entry`. -/
structure DeleteEntryResult where
  success : Bool
  entry : Entry
deriving Repr, DecidableEq

/-- Structured content `{ success, tag }` returned by `delete_tag`. -/
structure DeleteTagResult where
  success : Bool
  tag : Tag
deriving Repr, DecidableEq

/-- Embedding of the `delete_entry` handler (tools.ts lines 201-219): fetch
the entry; `invariant(existingEntry, ...)` throws the not-found error naming
the id before any deletion happens; otherwise delete and return
`{ success: true, entry: existingEntry }` with the record as it existed
before the deletion.  Returns the post-call store and the outcome. -/
def deleteEntryTool (db : List Entry) (id : Nat) :
    List Entry × Except String DeleteEntryResult :=
  match getEntry db id with
  | none => (db, Except.error ("Entry with ID \"" ++ toString id ++ "\" not found"))
  | some e => (deleteEntry db id, Except.ok ⟨true, e⟩)

/-- Embedding of the `delete_tag` handler (tools.ts lines 339-355). -/
def deleteTagTool (db : List Tag) (id : Nat) :
    List Tag × Except String DeleteTagResult :=
  match getTag db id with
  | none => (db, Except.error ("Tag ID \"" ++ toString id ++ "\" not found"))
  | some t => (deleteTag db id, Except.ok ⟨true, t⟩)

/-! ### Claim C10 -/

/-- C10: `delete_entry` / `delete_tag` with a missing id fail with the
not-found error naming the id and leave the store unchanged; with an
existing id they delete the record and return structured content with
`success: true` and the record as it existed before deletion. -/
theorem delete_tools_contract (dbE : List Entry) (dbT : List Tag) (eid tid : Nat) :
    (getEntry dbE eid = none →
      deleteEntryTool dbE eid =
        (dbE, Except.error ("Entry with ID \"" ++ toString eid ++ "\" not found"))) ∧
    (∀ e, getEntry dbE eid = some e →
      deleteEntryTool dbE eid = (deleteEntry dbE eid, Except.ok ⟨true, e⟩) ∧
      e ∈ dbE ∧ e.id = eid) ∧
    (getTag dbT tid = none →
      deleteTagTool dbT tid =
        (dbT, Except.error ("Tag ID \"" ++ toString tid ++ "\" not found"))) ∧
    (∀ t, getTag dbT tid = some t →
      deleteTagTool dbT tid = (deleteTag dbT tid, Except.ok ⟨true, t⟩) ∧
      t ∈ dbT ∧ t.id = tid) := by
  refine ⟨?_, ?_, ?_, ?_⟩
  · intro hnone
    unfold deleteEntryTool
    rw [hnone]
  · intro e hsome
    refine ⟨by unfold deleteEntryTool; rw [hsome], List.mem_of_find?_eq_some hsome, ?_⟩
    have := List.find?_some hsome
    simpa using this
  · intro hnone
    unfold deleteTagTool
    rw [hnone]
  · intro t hsome
    refine ⟨by unfold deleteTagTool; rw [hsome], List.mem_of_find?_eq_some hsome, ?_⟩
    have := List.find?_some hsome
    simpa using this

/-- C10 witness: on a concrete one-entry store, deleting id 1 succeeds and
returns the pre-deletion record; on concrete stores, deleting missing id 2
returns the not-found error naming 2 and leaves the store unchanged. -/
theorem delete_tools_contract_witness :
    (getEntry [Entry.mk 1 "day" "hi"] 1 = some (Entry.mk 1 "day" "hi") ∧
      (deleteEntryTool [Entry.mk 1 "day" "hi"] 1
          = (deleteEntry [Entry.mk 1 "day" "hi"] 1, Except.ok ⟨true, Entry.mk 1 "day" "hi"⟩) ∧
        Entry.mk 1 "day" "hi" ∈ [Entry.mk 1 "day" "hi"] ∧ (Entry.mk 1 "day" "hi").id = 1)) ∧
    (getEntry [Entry.mk 1 "day" "hi"] 2 = none ∧
      deleteEntryTool [Entry.mk 1 "day" "hi"] 2
        = ([Entry.mk 1 "day" "hi"],
            Except.error ("Entry with ID \"" ++ toString 2 ++ "\" not found"))) :=
  ⟨⟨by decide,
      (delete_tools_contract [Entry.mk 1 "day" "hi"] [] 1 0).2.1
        (Entry.mk 1 "day" "hi") (by decide)⟩,
    by decide,
    (delete_tools_contract [Entry.mk 1 "day" "hi"] [] 2 0).1 (by decide)⟩

end EpicMe
